import Mathlib

/-
Verification development for heat's square-diagonal tiling scheme
(src/heat/core/tiling.py, class SquareDiagTiles) and the data-parallel
gradient synchronizer (src/heat/nn/data_parallel/data_parallel.py,
class DataParallel).

The Python code is shallowly embedded: machine integers become Nat/Int,
torch tensors of sizes become lists, raised exceptions become Except
errors, and the distributed pieces (the MPI communicator) are modelled
from the specification where their code is outside the sources.
-/

namespace HeatVerify

/-- Modelled from the spec: the communication layer's balanced 1-D chunking
function `chunk(extent, axis, rank, w_size)` (heat/core/communication.py is
not among the sources).  The spec describes it as near-equal balanced
chunking, local extents differ by at most one and earlier ranks receive the
larger share. -/
def chunkSize (extent rank w : Nat) : Nat :=
  extent / w + if rank < extent % w then 1 else 0

/-- The `last_tile_cols` decrement loop of `SquareDiagTiles.__init__`
(tiling.py lines 82-90): starting from `tile_per_proc`, decrement while
`rem_cols_last_pr / last_tile_cols < 2`, with a break once the value 1 is
reached.  The Python division is torch float division, so with a current
value of 0 the condition `rem/0 < 2` is false (`inf`/`nan`) and the loop
exits returning 0; real division `rem/c < 2` with `c > 0` is exactly
`rem < 2*c` over the integers. -/
def lastTileColsLoop (rem : Nat) : Nat → Nat
  | 0 => 0
  | cols + 1 =>
    if rem < 2 * (cols + 1) then
      if cols = 1 then 1 else lastTileColsLoop rem cols
    else cols + 1

/-- `last_tile_cols` as computed by `SquareDiagTiles.__init__` from the
remaining row/column count on the last diagonal process and `tile_per_proc`. -/
def last_tile_cols (rem tpp : Nat) : Nat := lastTileColsLoop rem tpp

/-- Running prefix sums (torch.cumsum over a 1-D tensor). -/
def cumsumFrom (acc : Int) : List Int → List Int
  | [] => []
  | x :: xs => (acc + x) :: cumsumFrom (acc + x) xs

/-- torch.cumsum of a list, dim 0. -/
def cumsumL (l : List Int) : List Int := cumsumFrom 0 l

/-- Python `list.insert(i, x)` (clamping an out-of-range position, as Python
does). -/
def insertAt (i : Nat) (x : Int) (l : List Int) : List Int :=
  l.take i ++ x :: l.drop i

/-- The tile-size computation of `SquareDiagTiles.__init__`
(tiling.py lines 63-248) for a 2-D DNDarray of global shape `m × n`, split
axis `split`, `P` processes and `tpp = tile_per_proc`, with the balanced
local shapes the distributed array layer produces (lshape_map gathered via
Allreduce).  Returns the final pair (row tile sizes, column tile sizes); the
boundary arrays of the tile map are their cumulative sums with a leading 0
(lines 242-253). -/
def squareDiagSizes (m n split P tpp : Nat) : List Int × List Int := Id.run do
  -- lshape_map: local rows / local cols per rank (balanced distribution)
  let lsh0 : Nat → Nat := fun r => if split = 0 then chunkSize m r P else m
  let lsh1 : Nat → Nat := fun r => if split = 1 then chunkSize n r P else n
  let lshS : Nat → Nat := fun r => if split = 0 then lsh0 r else lsh1 r
  -- cumulative local extents along the split axis
  let cs : Nat → Nat := fun i => ((List.range (i + 1)).map lshS).sum
  let mn := min m n
  -- last_diag_pr: first rank whose cumulative split extent reaches min(gshape)
  let ldp : Nat := (List.range P).findIdx (fun i => decide (mn ≤ cs i))
  let lpm1 := if 0 < ldp then ldp - 1 else 0
  let rem : Nat := ((mn : Int) - (cs lpm1 : Int)).natAbs
  let ltc := lastTileColsLoop rem tpp
  -- col_per_proc_list / row_per_proc_list
  let mut col_per_proc : List Int := List.replicate ldp (tpp : Int) ++ [(ltc : Int)]
  if ldp < P - 1 ∧ split = 1 then
    col_per_proc := col_per_proc ++ List.replicate (P - ldp - 1) (1 : Int)
  let mut row_per_proc : List Int := List.replicate P (tpp : Int)
  let tile_columns := tpp * ldp + ltc
  -- diag_crossings, last entry clamped to min(gshape), 0 prepended
  let dcBase := (List.range (ldp + 1)).map (fun i => cs i)
  let dc : List Nat := 0 :: (dcBase.dropLast ++ [min (cs ldp) mn])
  -- tile column sizes from chunking each diagonal crossing segment
  let mut col_inds : List Int := []
  for col in List.range tile_columns do
    let seg := dc.getD (col / tpp + 1) 0 - dc.getD (col / tpp) 0
    let w := if col / tpp ≠ ldp then tpp else ltc
    col_inds := col_inds ++ [((chunkSize seg (col % tpp) w : Nat) : Int)]
  let total_tile_rows := tpp * P
  -- row sizes start as the column sizes, padded with zeros
  let mut row_inds : List Int := (List.range total_tile_rows).map (fun c => col_inds.getD c 0)
  -- gshape[0] < gshape[1] and split 0: extend the last tile column
  if m < n ∧ split = 0 then
    col_inds := col_inds.dropLast ++ [(n : Int) - col_inds.dropLast.sum]
  -- extra rows after the diagonal for split 0 (lines 133-146);
  -- `diff > lshape/2` over the reals is `lshape < 2*diff` over the integers
  if ldp < P - 1 ∧ split = 0 then
    let diff : Int := (cs ldp : Int) - (n : Int)
    if (lsh0 ldp : Int) < 2 * diff then
      row_inds := insertAt tile_columns diff row_inds
      row_per_proc := row_per_proc.set ldp (row_per_proc.getD ldp 0 + 1)
    else
      row_inds := row_inds.set (tile_columns - 1) (row_inds.getD (tile_columns - 1) 0 + diff)
  -- split 1 with gshape[1] > gshape[0]: extend the columns (lines 148-163)
  if split = 1 ∧ m < n then
    let col_proc_ind : List Int := cumsumL col_per_proc
    for pr in List.range P do
      let lcs : Int := (((List.range (pr + 1)).map lsh1).sum : Nat)
      let ccs := cumsumL col_inds
      let cpi : Nat := (col_proc_ind.getD pr 0).toNat
      let diff : Int := lcs - ccs.getD (cpi - 1) 0
      if 0 < diff ∧ pr ≤ ldp then
        col_per_proc := col_per_proc.set pr (col_per_proc.getD pr 0 + 1)
        col_inds := insertAt cpi diff col_inds
      if ldp < pr ∧ 0 < diff then
        col_inds := insertAt cpi diff col_inds
  -- gshape[0] > gshape[1]: fill the zero row slots from the ranks after the
  -- last diagonal process (lines 201-209)
  if n < m then
    let mut nz : List Nat :=
      (List.range row_inds.length).filter (fun i => row_inds.getD i 0 == 0)
    for i in List.range P do
      if ldp + 1 ≤ i then
        for t in List.range tpp do
          let v := chunkSize (lsh0 i) t tpp
          match nz with
          | [] => pure ()
          | j :: rest =>
            row_inds := row_inds.set j ((v : Nat) : Int)
            nz := rest
  -- extra rows below the diagonal for split 1 (lines 218-232)
  if n < m ∧ split = 1 then
    if (10 : Int) < (m : Int) - (n : Int) then
      -- num_ex_row_tiles = 1 and its decrement loop never runs when m - n > 10
      for i in List.range 1 do
        row_inds := row_inds ++ [((chunkSize (m - n) i 1 : Nat) : Int)]
    else
      row_inds := row_inds.dropLast ++ [(m : Int) - row_inds.dropLast.sum]
  -- gshape[0] < gshape[1]: prune zero-size rows (lines 235-240)
  if m < n then
    row_inds := row_inds.filter (fun x => x != 0)
  return (row_inds, col_inds)

/-- Boundary array of a size list: `[0] + sizes[:-1]` cumulatively summed
(tiling.py lines 244-248). -/
def boundsOf (sizes : List Int) : List Int := cumsumL (0 :: sizes.dropLast)

/-- Row boundary array produced by `SquareDiagTiles.__init__`. -/
def squareDiagRowBounds (m n split P tpp : Nat) : List Int :=
  boundsOf (squareDiagSizes m n split P tpp).1

/-- Column boundary array produced by `SquareDiagTiles.__init__`. -/
def squareDiagColBounds (m n split P tpp : Nat) : List Int :=
  boundsOf (squareDiagSizes m n split P tpp).2

/-! ## Tile accessor (get_start_stop, __getitem__, __setitem__, local_to_global) -/

/-- One component of a tile key: an integer index or a slice with optional
start and stop (strides are not supported by the source). -/
inductive Idx where
  | i : Nat → Idx
  | sl : Option Nat → Option Nat → Idx
deriving DecidableEq

/-- A tile key as accepted by the accessor methods: a single component
(an int or a slice, the second dimension taken whole) or a pair. -/
inductive TKey where
  | one : Idx → TKey
  | two : Idx → Idx → TKey
deriving DecidableEq

/-- The state of a `SquareDiagTiles` object that the accessor methods read:
split axis, global shape, the row/column boundary lists, the per-process
tile counts, the owning rank of each grid cell (`tile_map[...,2]`) and the
tile grid dimensions. -/
structure Tiles where
  split : Nat
  gshape0 : Nat
  gshape1 : Nat
  row_inds : List Int
  col_inds : List Int
  row_per_proc : List Nat
  col_per_proc : List Nat
  rankAt : Nat → Nat → Nat
  nrows : Nat
  ncols : Nat

/-- Indices selected by a Python slice over an axis of extent `bound`
(stops are clamped, as tensor indexing clamps them). -/
def sliceSel (bound : Nat) (st sp : Option Nat) : List Nat :=
  (List.range (min (sp.getD bound) bound)).drop (st.getD 0)

/-- Indices selected by one key component over an axis of extent `bound`. -/
def idxSel (bound : Nat) : Idx → List Nat
  | .i k => [k]
  | .sl st sp => sliceSel bound st sp

/-- Tile rows selected by a key (a lone component indexes the rows). -/
def keyRows (T : Tiles) : TKey → List Nat
  | .one a => idxSel T.nrows a
  | .two a _ => idxSel T.nrows a

/-- Tile columns selected by a key (a lone component selects all columns). -/
def keyCols (T : Tiles) : TKey → List Nat
  | .one _ => List.range T.ncols
  | .two _ b => idxSel T.ncols b

/-- `tile_map[key][..., 2].unique()`: the deduplicated owning ranks of the
selected tiles. -/
def uniqueRanks (T : Tiles) (k : TKey) : List Nat :=
  (((keyRows T k).map (fun r => (keyCols T k).map (fun c => T.rankAt r c))).flatten).dedup

/-- Errors raised by the accessor methods: the selection-spans-multiple-ranks
error (a ValueError in the source, `CrossProcessSliceError` in the spec) and
the remaining TypeError paths. -/
inductive TileErr where
  | crossProcess
  | typeErr
deriving DecidableEq

instance {ε α : Type} [DecidableEq ε] [DecidableEq α] : DecidableEq (Except ε α) := fun x y =>
  match x, y with
  | .error a, .error b =>
    if h : a = b then isTrue (congrArg Except.error h)
    else isFalse (fun hc => h (Except.error.inj hc))
  | .error _, .ok _ => isFalse (fun hc => Except.noConfusion hc)
  | .ok _, .error _ => isFalse (fun hc => Except.noConfusion hc)
  | .ok a, .ok b =>
    if h : a = b then isTrue (congrArg Except.ok h)
    else isFalse (fun hc => h (Except.ok.inj hc))

/-- `self.row_indices + [gshape[0]]` (tiling.py line 418). -/
def extRowInds (T : Tiles) : List Int := T.row_inds ++ [(T.gshape0 : Int)]

/-- `self.col_indices + [gshape[1]]` (tiling.py line 419). -/
def extColInds (T : Tiles) : List Int := T.col_inds ++ [(T.gshape1 : Int)]

/-- Start/stop bounds of one key component against an extended boundary
list, relative to an owner offset (tiling.py lines 446-459): an int `k`
selects `[inds[k], inds[k+1])`; a slice selects from `inds[start]` (or 0)
to `inds[stop]` (or `inds[-1]`). -/
def idxBounds (inds : List Int) (off : Int) : Idx → Int × Int
  | .i k => (inds.getD k 0 - off, inds.getD (k + 1) 0 - off)
  | .sl st sp =>
    let s : Int := match st with | some v => inds.getD v 0 | none => 0
    let e : Int := match sp with | some v => inds.getD v 0 | none => inds.getD (inds.length - 1) 0
    (s - off, e - off)

/-- `row_start` of a process: the boundary at the sum of tile-row counts of
the preceding ranks when split is 0, else boundary 0 (tiling.py line 420). -/
def rowStart (T : Tiles) (pr : Nat) : Int :=
  (extRowInds T).getD (if T.split = 0 then (T.row_per_proc.take pr).sum else 0) 0

/-- `col_start` of a process (tiling.py line 421). -/
def colStart (T : Tiles) (pr : Nat) : Int :=
  (extColInds T).getD (if T.split = 1 then (T.col_per_proc.take pr).sum else 0) 0

/-- Key normalization shared by the accessors: a lone int or slice gets
`slice(0, None)` appended for the second dimension. -/
def keyPair : TKey → Idx × Idx
  | .one a => (a, Idx.sl (some 0) none)
  | .two a b => (a, b)

/-- `SquareDiagTiles.get_start_stop` (tiling.py lines 399-461).  Raises the
cross-process error when the selected tiles live on more than one rank; an
empty selection hits the Python TypeError of slicing a list with an empty
tensor. -/
def get_start_stop (T : Tiles) (k : TKey) : Except TileErr (Int × Int × Int × Int) :=
  if 1 < (uniqueRanks T k).length then .error .crossProcess
  else
    match uniqueRanks T k with
    | [] => .error .typeErr
    | pr :: _ =>
      let b0 := idxBounds (extRowInds T) (rowStart T pr) (keyPair k).1
      let b1 := idxBounds (extColInds T) (colStart T pr) (keyPair k).2
      .ok (b0.1, b0.2, b1.1, b1.2)

/-- `SquareDiagTiles.__getitem__` (tiling.py lines 494-568) run on the
process `rank`; the returned view of the local tensor is represented by its
start/stop bounds, `none` is the absent marker returned when the selection
is empty or the calling process does not own the tile.  A lone slice key
reaches `list(key)` in the source, which raises a TypeError. -/
def tiles_getitem (T : Tiles) (rank : Nat) (k : TKey) :
    Except TileErr (Option (Int × Int × Int × Int)) :=
  if 1 < (uniqueRanks T k).length then .error .crossProcess
  else
    match uniqueRanks T k with
    | [] => .ok none
    | pr :: _ =>
      if rank ≠ pr then .ok none
      else
        match k with
        | .one (.sl _ _) => .error .typeErr
        | _ =>
          let b0 := idxBounds (extRowInds T) (rowStart T rank) (keyPair k).1
          let b1 := idxBounds (extColInds T) (colStart T rank) (keyPair k).2
          .ok (some (b0.1, b0.2, b1.1, b1.2))

/-- `SquareDiagTiles.__setitem__` (tiling.py lines 877-899) acting on the
local tensor of process `rank`, modelled as a map from coordinates to
values: only when `rank == tile_map[key][..., 2].unique()` — the unique
owning-rank list is exactly `[rank]` — does the write assign `value` to
the elements of the view returned by `__getitem__`; otherwise the local
tensor is untouched.  (On a selection whose owner list is not a single
rank the source raises from the multi-element tensor comparison; the claim
only concerns single-owner keys.) -/
def tiles_setitem (T : Tiles) (rank : Nat) (k : TKey) (v : Int)
    (a : Int → Int → Int) : Int → Int → Int :=
  if uniqueRanks T k = [rank] then
    match tiles_getitem T rank k with
    | .ok (some (b0, b1, b2, b3)) =>
      fun i j => if b0 ≤ i ∧ i < b1 ∧ b2 ≤ j ∧ j < b3 then v else a i j
    | _ => a
  else a

/-- The per-component adjustment of `local_to_global` (tiling.py lines
637-643 and 650-656): add the preceding tile count `prev`; a slice stop
defaults to `prev + loc` and is replaced by `start + loc` unless
`stop - start < loc`. -/
def l2gAdjust (prev loc : Nat) : Idx → Idx
  | .i k => .i (k + prev)
  | .sl st sp =>
    let start : Nat := match st with | some s => s + prev | none => prev
    let stop : Nat := match sp with | some s => s + prev | none => prev + loc
    let stop2 : Nat := if (stop : Int) - (start : Int) < (loc : Int) then stop else start + loc
    .sl (some start) (some stop2)

/-- `SquareDiagTiles.local_to_global` (tiling.py lines 610-657). -/
def local_to_global (T : Tiles) (k : TKey) (rank : Nat) : Idx × Idx :=
  let (k0, k1) := keyPair k
  if T.split = 0 then
    (l2gAdjust ((T.row_per_proc.take rank).sum) (T.row_per_proc.getD rank 0) k0, k1)
  else if T.split = 1 then
    (k0, l2gAdjust ((T.col_per_proc.take rank).sum) (T.col_per_proc.getD rank 0) k1)
  else (k0, k1)

/-- A concrete tiling used to instantiate the accessor theorems: a 4 × 4
matrix split along axis 0 over 2 processes with one tile row per process
(row boundaries [0, 2], column boundaries [0, 2]); tile row 0 is owned by
rank 0 and tile row 1 by rank 1. -/
def Tex : Tiles where
  split := 0
  gshape0 := 4
  gshape1 := 4
  row_inds := [0, 2]
  col_inds := [0, 2]
  row_per_proc := [1, 1]
  col_per_proc := [2, 2]
  rankAt := fun r _ => if r = 0 then 0 else 1
  nrows := 2
  ncols := 2

/-- A concrete tiling with two tile rows per process (row boundaries
[0, 1, 2, 3] over a 4 × 4 matrix split along axis 0), used for the
`local_to_global` clamp evaluation. -/
def T6 : Tiles where
  split := 0
  gshape0 := 4
  gshape1 := 4
  row_inds := [0, 1, 2, 3]
  col_inds := [0, 2]
  row_per_proc := [2, 2]
  col_per_proc := [2, 2]
  rankAt := fun r _ => if r < 2 then 0 else 1
  nrows := 4
  ncols := 2

/-! ## Gradient synchronizer (DataParallel) -/

/-- Modelled from the spec: the collective sum-reduction
`Allreduce(IN_PLACE, buf, MPI.SUM)` over one scalar buffer per process
(the communication backend is an external collaborator); every process
receives the sum of all processes' buffers. -/
def allreduceSum (P : Nat) (buf : Fin P → ℚ) : Fin P → ℚ := fun _ => ∑ i, buf i

/-- `DataParallel.blocking_hook` (data_parallel.py lines 130-148) fired on
every process with local gradient `g r`: clone, scale by `1/comm.size`,
Allreduce-sum in place; the result each process observes. -/
def blocking_hook (P : Nat) (g : Fin P → ℚ) : Fin P → ℚ :=
  allreduceSum P (fun r => g r * (1 / (P : ℚ)))

/-- `functools.reduce(operator.mul, grad_loc.shape, 1)`: flattened element
count of a gradient tensor (data_parallel.py line 190). -/
def size1D (shape : List Nat) : Nat := shape.foldl (· * ·) 1

/-- Python `<` on `(size, handle)` pairs: lexicographic tuple comparison,
with the handles modelled as comparable identifiers. -/
def tupLtB (a b : Nat × Nat) : Bool := a.1 < b.1 || (a.1 == b.1 && a.2 < b.2)

/-- `bisect.insort` of `(size, handle)` into a (sorted) wait-handle queue:
the new pair is placed before the first strictly greater entry, i.e. after
every entry not exceeding it in the tuple order. -/
def insort (x : Nat × Nat) : List (Nat × Nat) → List (Nat × Nat)
  | [] => [x]
  | y :: ys => if tupLtB x y then x :: y :: ys else y :: insort x ys

/-- The wait-handle-queue update performed by the closure returned from
`DataParallel.nonblocking_hook` (data_parallel.py lines 177-193):
`bisect.insort(self.wait_handles[layer_name], (size1D, wait_handle))`. -/
def nonblocking_insert (q : List (Nat × Nat)) (shape : List Nat) (h : Nat) :
    List (Nat × Nat) := insort (size1D shape, h) q

/-- The insertion the spec's words describe: stable insertion ordered by the
flattened size alone, the new pair going after every entry of equal or
smaller size. -/
def stableInsertBySize (x : Nat × Nat) : List (Nat × Nat) → List (Nat × Nat)
  | [] => [x]
  | y :: ys => if x.1 < y.1 then x :: y :: ys else y :: stableInsertBySize x ys

/-- Non-strict lexicographic order on `(size, handle)` pairs. -/
def tupLe (a b : Nat × Nat) : Prop := a.1 < b.1 ∨ (a.1 = b.1 ∧ a.2 ≤ b.2)

instance : DecidableRel tupLe := fun a b => by
  unfold tupLe; infer_instance

/-- Python exceptions surfaced by `DataParallel.__init__`. -/
inductive PyErr where
  | typeError
  | valueError
deriving DecidableEq

/-- Number of positional parameters (besides `self`) of
`DataParallel.nonblocking_hook` (data_parallel.py line 167:
`def nonblocking_hook(self, layer_name)`). -/
def nonblocking_hook_arity : Nat := 1

/-- Number of positional arguments supplied at the registration call site
(data_parallel.py line 95: `self.nonblocking_hook(layer_name, name)`). -/
def nonblocking_hook_call_nargs : Nat := 2

/-- Python call semantics for the hook-producing call: a bound method called
with a number of positional arguments different from its parameter count
raises a TypeError. -/
def pyCallHook : Except PyErr Unit :=
  if nonblocking_hook_call_nargs = nonblocking_hook_arity then .ok () else .error .typeError

/-- The per-parameter hook-registration loop of `DataParallel.__init__`
(data_parallel.py lines 83-98), over the number of named parameters: with
an optimizer, each iteration evaluates `self.nonblocking_hook(layer_name,
name)`; without one it registers `blocking_hook` and cannot fail. -/
def registerParamHooks (optGiven : Bool) : Nat → Except PyErr Unit
  | 0 => .ok ()
  | nparams + 1 =>
    match (if optGiven then pyCallHook else .ok ()) with
    | .error e => .error e
    | .ok _ => registerParamHooks optGiven nparams

/-- `DataParallel.__init__` (data_parallel.py lines 55-98) reduced to its
failure behavior: with an optimizer whose parameters do not match the
module's it raises a ValueError (line 74); otherwise it runs the
hook-registration loop over the module's named parameters. -/
def dataParallelInitHooks (nparams : Nat) (optGiven optMatches : Bool) : Except PyErr Unit :=
  if optGiven ∧ ¬ optMatches then .error .valueError
  else registerParamHooks optGiven nparams

/-! ## Constructor type check (SquareDiagTiles.__init__, lines 60-61) -/

/-- The constructor argument: either a DNDarray carrying its global shape
and split axis, or a value of any other type. -/
inductive CtorInput where
  | dnd : List Nat → Nat → CtorInput
  | notDnd : CtorInput
deriving DecidableEq

/-- Whether `if not isinstance(arr, dndarray.DNDarray): raise TypeError`
(tiling.py lines 60-61) raises for the given input. -/
def ctorTypeCheckRaises : CtorInput → Bool
  | .dnd _ _ => false
  | .notDnd => true

/-- Being the expected 2-D distributed-matrix abstraction: a DNDarray whose
global shape has exactly two dimensions. -/
def isTwoDimDistMatrix : CtorInput → Prop
  | .dnd gs _ => gs.length = 2
  | .notDnd => False

/-! ## Theorems -/

/-- Claim C1: for every 2-D distributed matrix whose split-axis global
extent is evenly divisible by the process count and by tiles_per_process,
the boundary arrays built by `SquareDiagTiles.__init__` are strictly
increasing from 0 and their half-open ranges partition the global index
space.  This fails on the code: a 9 × 6 matrix, split axis 1, 2 processes,
tile_per_proc 3 (split extent 6 divisible by both 2 and 3, even by 6)
leaves a zero-size row tile, so the row boundary array is
[0, 1, 2, 3, 6, 6] — not strictly increasing, with an empty row range
(the source's own line-64 todo notes a bug for exactly this small
split-1, rows > cols regime). -/
theorem c1_row_bounds_failing :
    (6 : Nat) % 2 = 0 ∧ (6 : Nat) % 3 = 0 ∧
    (0 : Int) ∈ (squareDiagSizes 9 6 1 2 3).1 ∧
    squareDiagRowBounds 9 6 1 2 3 = [0, 1, 2, 3, 6, 6] ∧
    ¬ List.Chain' (fun a b : Int => a < b) (squareDiagRowBounds 9 6 1 2 3) := by
  have he : squareDiagRowBounds 9 6 1 2 3 = [0, 1, 2, 3, 6, 6] := by decide
  refine ⟨rfl, rfl, by decide, he, ?_⟩
  rw [he]
  simp [List.chain'_cons]

/-- Claim C5: the `last_tile_cols` decrement loop never produces a count
below 1.  This fails on the code: with `tile_per_proc = 1` the decrement
happens before the floor check, so the loop ends at 0 (e.g. a square 4 × 4
matrix on one process has `rem_cols_last_pr = 0`, and the loop returns 0,
leaving zero tile columns). -/
theorem c5_floor_violated : last_tile_cols 0 1 = 0 ∧ last_tile_cols 1 1 = 0 := by
  exact ⟨rfl, rfl⟩

/-- Claim C2: in blocking mode each gradient-ready callback scales the
local gradient by `1/process_count` and sum-reduces it across all
processes, so every process observes the global average of the local
gradients; in particular with 2 processes and local gradients 2 and 4 both
processes observe 3. -/
theorem c2_blocking_hook_average :
    (∀ (P : Nat) (g : Fin P → ℚ) (r : Fin P),
      blocking_hook P g r = (∑ i, g i) / (P : ℚ)) ∧
    (∀ r : Fin 2, blocking_hook 2 (fun i => if i.val = 0 then 2 else 4) r = 3) := by
  constructor
  · intro P g r
    simp [blocking_hook, allreduceSum, div_eq_mul_inv, Finset.sum_mul]
  · intro r
    simp [blocking_hook, allreduceSum, Fin.sum_univ_two]
    norm_num

/-- Claim C3: `get_start_stop` and `__getitem__` fail with the
cross-process error exactly when the (nonempty) selection is owned by more
than one rank; on a single-owner selection that error is never raised. -/
theorem c3_cross_process_iff (T : Tiles) (rank : Nat) (k : TKey)
    (h : uniqueRanks T k ≠ []) :
    (get_start_stop T k = .error .crossProcess ↔ 1 < (uniqueRanks T k).length) ∧
    (tiles_getitem T rank k = .error .crossProcess ↔ 1 < (uniqueRanks T k).length) := by
  unfold get_start_stop tiles_getitem
  cases hu : uniqueRanks T k with
  | nil => exact absurd hu h
  | cons pr rest =>
    cases rest with
    | cons q qs => constructor <;> simp
    | nil =>
      constructor
      · simp
      · constructor
        · intro hres
          by_cases hr : rank = pr
          · cases k with
            | one a => cases a <;> simp [hr] at hres
            | two a b => simp [hr] at hres
          · simp [hr] at hres
        · intro hlen
          exact absurd hlen (by simp)

/-- Concrete instantiation of claim C3: on the example tiling, the key
selecting both tile rows of column 0 spans ranks 0 and 1 and both accessors
raise the cross-process error. -/
theorem c3_witness :
    get_start_stop Tex (.two (.sl (some 0) (some 2)) (.i 0)) = .error .crossProcess ∧
    tiles_getitem Tex 0 (.two (.sl (some 0) (some 2)) (.i 0)) = .error .crossProcess := by
  have h := c3_cross_process_iff Tex 0 (.two (.sl (some 0) (some 2)) (.i 0)) (by decide)
  exact ⟨h.1.mpr (by decide), h.2.mpr (by decide)⟩

/-- Claim C4: reading a valid single-owner tile from a process that does
not own it returns the explicit absent marker (None), not an error. -/
theorem c4_absent_marker (T : Tiles) (rank pr : Nat) (k : TKey)
    (h1 : uniqueRanks T k = [pr]) (h2 : rank ≠ pr) :
    tiles_getitem T rank k = .ok none := by
  unfold tiles_getitem
  rw [h1]
  simp [h2]

/-- Concrete instantiation of claim C4: tile (0, 0) of the example tiling
is owned by rank 0; reading it on rank 1 yields the absent marker. -/
theorem c4_witness : tiles_getitem Tex 1 (.two (.i 0) (.i 0)) = .ok none :=
  c4_absent_marker Tex 1 0 (.two (.i 0) (.i 0)) (by decide) (by decide)

/-- Claim C6: `local_to_global` adds the preceding-ranks tile count and
clamps slice stops so the range does not extend past the rank's tile-count
bound.  This fails on the code: with tile-row counts [2, 2], rank 0 and the
local key `slice(1, 5)` the source returns `slice(1, 3)` — the clamp is
`start + loc`, and the stop 3 exceeds the rank's bound 2 (preceding 0 plus
local 2), contradicting the method's own docstring ("adjusted to the
maximum allowed"). -/
theorem c6_clamp_overshoot :
    local_to_global T6 (.one (.sl (some 1) (some 5))) 0 =
      (Idx.sl (some 1) (some 3), Idx.sl (some 0) none) ∧
    (T6.row_per_proc.take 0).sum + T6.row_per_proc.getD 0 0 < 3 := by
  exact ⟨by decide, by decide⟩

/-- Counterexample to claim C7: `bisect.insort` on `(size, handle)` pairs
is not stable for equal sizes — inserting `(4, 3)` into `[(4, 10)]` places
the new pair before the existing equal-size pair (the tuple comparison
falls through to the handles), while stable insertion by size would place
it after. -/
theorem c7_insert_not_stable :
    nonblocking_insert [(4, 10)] [4] 3 = [(4, 3), (4, 10)] ∧
    stableInsertBySize (4, 3) [(4, 10)] = [(4, 10), (4, 3)] ∧
    nonblocking_insert [(4, 10)] [4] 3 ≠ stableInsertBySize (4, 3) [(4, 10)] := by
  decide

theorem tupLe_of_lt {a b : Nat × Nat} (h : tupLtB a b = true) : tupLe a b := by
  simp [tupLtB] at h
  unfold tupLe
  omega

theorem tupLe_of_not_lt {a b : Nat × Nat} (h : tupLtB a b = false) : tupLe b a := by
  simp [tupLtB] at h
  unfold tupLe
  omega

theorem tupLe_trans' {a b c : Nat × Nat} (h1 : tupLe a b) (h2 : tupLe b c) : tupLe a c := by
  unfold tupLe at h1 h2 ⊢
  omega

theorem insort_mem {x z : Nat × Nat} : ∀ {q : List (Nat × Nat)},
    z ∈ insort x q → z = x ∨ z ∈ q
  | [], h => by simpa [insort] using h
  | y :: ys, h => by
    unfold insort at h
    by_cases hc : tupLtB x y = true
    · rw [if_pos hc] at h
      rcases List.mem_cons.mp h with h | h
      · exact Or.inl h
      · exact Or.inr h
    · rw [if_neg hc] at h
      rcases List.mem_cons.mp h with h | h
      · exact Or.inr (h ▸ List.mem_cons_self y ys)
      · rcases insort_mem h with h | h
        · exact Or.inl h
        · exact Or.inr (List.mem_cons_of_mem y h)

theorem insort_pairwise (x : Nat × Nat) : ∀ {q : List (Nat × Nat)},
    q.Pairwise tupLe → (insort x q).Pairwise tupLe
  | [], _ => by simp [insort, tupLe]
  | y :: ys, h => by
    rcases List.pairwise_cons.mp h with ⟨hy, hys⟩
    unfold insort
    by_cases hc : tupLtB x y = true
    · rw [if_pos hc]
      refine List.pairwise_cons.mpr ⟨?_, h⟩
      intro z hz
      rcases List.mem_cons.mp hz with rfl | hz
      · exact tupLe_of_lt hc
      · exact tupLe_trans' (tupLe_of_lt hc) (hy z hz)
    · rw [if_neg hc]
      refine List.pairwise_cons.mpr ⟨?_, insort_pairwise x hys⟩
      intro z hz
      rcases insort_mem hz with rfl | hz
      · exact tupLe_of_not_lt (by simpa using hc)
      · exact hy z hz

/-- Claim C7 amended: each gradient-ready callback inserts `(size, handle)`
at the position given by the lexicographic tuple order (so ties are decided
by comparing the handles, not by arrival order), and the per-layer queue
remains sorted ascending by flattened element count. -/
theorem c7_sorted_insert (q : List (Nat × Nat)) (shape : List Nat) (hnd : Nat)
    (hq : q.Pairwise tupLe) :
    (nonblocking_insert q shape hnd).Pairwise tupLe ∧
    ((nonblocking_insert q shape hnd).map Prod.fst).Pairwise (· ≤ ·) := by
  have hp := insort_pairwise (size1D shape, hnd) hq
  refine ⟨hp, ?_⟩
  rw [List.pairwise_map]
  refine hp.imp ?_
  intro a b hab
  unfold tupLe at hab
  omega

/-- Concrete instantiation of claim C7 (amended): inserting a size-6 tensor
handle into the singleton queue [(4, 10)] keeps the queue sorted. -/
theorem c7_witness :
    (nonblocking_insert [(4, 10)] [2, 3] 7).Pairwise tupLe ∧
    ((nonblocking_insert [(4, 10)] [2, 3] 7).map Prod.fst).Pairwise (· ≤ ·) :=
  c7_sorted_insert [(4, 10)] [2, 3] 7 (by simp [tupLe])

/-- Claim C8: a write through a valid single-owner tile key is a no-op on
every process other than the owning rank; on the owning rank exactly the
elements within the tile's bounds (the view `__getitem__` returns) are set
and all others are left unchanged. -/
theorem c8_setitem_frame (T : Tiles) (rank pr : Nat) (k : TKey) (v : Int)
    (a : Int → Int → Int) (h1 : uniqueRanks T k = [pr]) :
    (rank ≠ pr → tiles_setitem T rank k v a = a) ∧
    (∀ b0 b1 b2 b3 : Int,
      tiles_getitem T rank k = Except.ok (some (b0, b1, b2, b3)) →
      ∀ i j : Int,
        ((b0 ≤ i ∧ i < b1 ∧ b2 ≤ j ∧ j < b3) → tiles_setitem T rank k v a i j = v) ∧
        (¬ (b0 ≤ i ∧ i < b1 ∧ b2 ≤ j ∧ j < b3) → tiles_setitem T rank k v a i j = a i j)) := by
  constructor
  · intro hne
    have hcond : ¬ uniqueRanks T k = [rank] := by
      rw [h1]
      intro hc
      exact hne (List.cons.inj hc).1.symm
    unfold tiles_setitem
    rw [if_neg hcond]
  · intro b0 b1 b2 b3 hget i j
    by_cases hr : rank = pr
    · have hcond : uniqueRanks T k = [rank] := by rw [h1, hr]
      unfold tiles_setitem
      rw [if_pos hcond, hget]
      constructor
      · intro hin
        simp [hin]
      · intro hout
        simp [hout]
    · exfalso
      unfold tiles_getitem at hget
      rw [h1] at hget
      simp [hr] at hget

/-- Concrete instantiation of claim C8: writing tile (0, 0) of the example
tiling on non-owner rank 1 leaves the local tensor untouched; on owner
rank 0 it sets an element inside the bounds and leaves one outside them
unchanged. -/
theorem c8_witness :
    tiles_setitem Tex 1 (TKey.two (Idx.i 0) (Idx.i 0)) 7 (fun _ _ => 0) = (fun _ _ => 0) ∧
    tiles_setitem Tex 0 (TKey.two (Idx.i 0) (Idx.i 0)) 7 (fun _ _ => 0) 0 0 = 7 ∧
    tiles_setitem Tex 0 (TKey.two (Idx.i 0) (Idx.i 0)) 7 (fun _ _ => 0) 3 3 = 0 := by
  refine ⟨(c8_setitem_frame Tex 1 0 _ 7 _ (by decide)).1 (by decide), ?_, ?_⟩
  · exact (((c8_setitem_frame Tex 0 0 _ 7 _ (by decide)).2 0 2 0 2 (by decide)) 0 0).1 (by decide)
  · exact (((c8_setitem_frame Tex 0 0 _ 7 _ (by decide)).2 0 2 0 2 (by decide)) 3 3).2 (by decide)

/-- Counterexample to claim C9: the constructor's check tests only the
type, not the dimensionality — a 3-D DNDarray is not the expected 2-D
distributed-matrix abstraction, yet the check does not raise. -/
theorem c9_not_two_d_passes :
    ¬ isTwoDimDistMatrix (CtorInput.dnd [4, 4, 4] 0) ∧
    ctorTypeCheckRaises (CtorInput.dnd [4, 4, 4] 0) = false := by
  constructor
  · simp [isTwoDimDistMatrix]
  · rfl

/-- Claim C9 amended: `SquareDiagTiles` construction fails with the
wrong-type error exactly when the input is not a DNDarray instance;
dimensionality is not checked. -/
theorem c9_type_check_iff (x : CtorInput) :
    ctorTypeCheckRaises x = true ↔ x = CtorInput.notDnd := by
  cases x <;> simp [ctorTypeCheckRaises]

/-- Claim C10: for every module with at least one named parameter,
constructing DataParallel in non-blocking mode (matching optimizer
supplied) raises a TypeError during `__init__`, because the registration
loop calls `nonblocking_hook` with two arguments while it accepts one. -/
theorem c10_nonblocking_init_typeerror (nparams : Nat) (h : 0 < nparams) :
    dataParallelInitHooks nparams true true = .error .typeError := by
  cases nparams with
  | zero => exact absurd h (by simp)
  | succ k => rfl

/-- Concrete instantiation of claim C10: a module with one named parameter. -/
theorem c10_witness : dataParallelInitHooks 1 true true = .error .typeError :=
  c10_nonblocking_init_typeerror 1 (by decide)

end HeatVerify
